import Mathlib

/-!
A verification development for the jsonface Go package (`lib.go`).

The package decodes JSON into Go values whose type graphs contain interface
("polymorphic") slots, by deriving a structurally isomorphic "shadow" type in
which every registry-covered interface slot is replaced by the byte-capturing
`StuntDouble` placeholder, generically decoding into the shadow, and then
reconciling the shadow value back into the real destination by invoking
caller-registered callbacks.

This file shallowly embeds the relevant definitions of `lib.go`:
`stuntdoubleType` (the shadow-shape deriver), `stuntdoubleToReal` (the
reconciler), `Unmarshal` (the decode front-end), the `StuntDouble` placeholder
with its marshalling methods, and `AddGlobalCB` (global registration).
The generic decoder `encoding/json` is external to the repository and is
modelled as an abstract parameter (`JsonDecoder`); reflection-specific
mechanics (method sets, settability) are modelled structurally as documented
at each definition.
-/

namespace Jsonface

/-- Go byte slices (`[]byte`), as lists of byte values. -/
abbrev Bytes : Type := List Nat

/-- The bytes of the literal `null`, returned by `StuntDouble.MarshalJSON`
for an empty capture (lib.go line 97). -/
def nullBytes : Bytes := [110, 117, 108, 108]

/-- Go `error` values as produced by the jsonface code: `errors.New`
literals, `fmt.Errorf("... %v", e)` wrappings of an inner error, and the
package-internal `cbErr` wrapper that marks callback-originated errors
(lib.go lines 71-88). -/
inductive GoError where
  | newErr (msg : String)
  | fmtWrap (msg : String) (inner : GoError)
  | cbErr (inner : GoError)
deriving DecidableEq, Repr

/-- `fmtErr` from lib.go (lines 75-81), on a non-nil error: a `cbErr` is
returned unchanged, any other error is wrapped with `fmt.Errorf`. -/
def fmtErr (msg : String) (e : GoError) : GoError :=
  match e with
  | .cbErr i => .cbErr i
  | other => .fmtWrap msg other

/-- `unwrapCBErr` from lib.go (lines 82-88), on a non-nil error. -/
def unwrapCBErr (e : GoError) : GoError :=
  match e with
  | .cbErr i => i
  | other => other

/-- Go types as seen through `reflect` by `stuntdoubleType` and
`stuntdoubleToReal`.  `prim` collects all the kinds handled by the common
primitive branch of lib.go (Bool, the integer kinds, the float and complex
kinds, Func, String, UnsafePointer); the carried name is the type's
`String()` rendering.  `iface` carries the interface's qualified name and,
because Go assignability to an interface is a method-set question outside a
structural embedding, the list of `String()` names of the types that
implement it.  `withUnm` marks a named type `name` whose value or pointer
method set implements `json.Unmarshaler` or `encoding.TextUnmarshaler`;
its structural underlying type is `inner`.  `stunt` is the package's own
`StuntDouble` placeholder type.  `unsupported` stands for the remaining Go
kinds that fall to the `default` branch of the code. -/
inductive GoType where
  | invalid
  | prim (name : String)
  | ptr (elem : GoType)
  | iface (name : String) (impls : List String)
  | array (len : Nat) (elem : GoType)
  | slice (elem : GoType)
  | struct_ (fields : List (String × GoType))
  | map_ (key : GoType) (elem : GoType)
  | chan_
  | unsupported (kindName : String)
  | stunt
  | withUnm (name : String) (inner : GoType)

mutual

/-- Boolean equality on `GoType` (structural). -/
def GoType.beq : GoType → GoType → Bool
  | .invalid, .invalid => true
  | .prim a, .prim b => a == b
  | .ptr a, .ptr b => GoType.beq a b
  | .iface n1 i1, .iface n2 i2 => n1 == n2 && i1 == i2
  | .array l1 e1, .array l2 e2 => l1 == l2 && GoType.beq e1 e2
  | .slice a, .slice b => GoType.beq a b
  | .struct_ f1, .struct_ f2 => GoType.beqFields f1 f2
  | .map_ k1 v1, .map_ k2 v2 => GoType.beq k1 k2 && GoType.beq v1 v2
  | .chan_, .chan_ => true
  | .unsupported a, .unsupported b => a == b
  | .stunt, .stunt => true
  | .withUnm n1 t1, .withUnm n2 t2 => n1 == n2 && GoType.beq t1 t2
  | _, _ => false
termination_by structural a _ => a

/-- Boolean equality on struct field lists. -/
def GoType.beqFields : List (String × GoType) → List (String × GoType) → Bool
  | [], [] => true
  | (n1, t1) :: r1, (n2, t2) :: r2 =>
    n1 == n2 && GoType.beq t1 t2 && GoType.beqFields r1 r2
  | _, _ => false
termination_by structural a _ => a

end

/-- The combined unmarshaler check of lib.go lines 184-186: whether
`realType` or `reflect.PtrTo(realType)` implements `json.Unmarshaler` or
`encoding.TextUnmarshaler`.  `StuntDouble` implements `json.Unmarshaler`
on its pointer receiver (lib.go line 100); `withUnm` nodes carry the
property by construction.  (Since a pointer type's method set contains the
value method set, the reconciler's pointer-only check at lib.go line 248
coincides with this predicate on these types.) -/
def implementsUnm : GoType → Bool
  | .stunt => true
  | .withUnm _ _ => true
  | _ => false

mutual

/-- The `String()` rendering of a type, used as the registry lookup key
(`TypeName(realType.String())`, lib.go lines 198 and 240). -/
def typeString : GoType → String
  | .invalid => "<invalid Type>"
  | .prim n => n
  | .ptr t => "*" ++ typeString t
  | .iface n _ => n
  | .array n t => "[" ++ toString n ++ "]" ++ typeString t
  | .slice t => "[]" ++ typeString t
  | .struct_ fts => "struct \x7b " ++ typeStringFields fts ++ " \x7d"
  | .map_ k v => "map[" ++ typeString k ++ "]" ++ typeString v
  | .chan_ => "chan"
  | .unsupported k => k
  | .stunt => "jsonface.StuntDouble"
  | .withUnm n _ => n
termination_by structural t => t

/-- Field list part of a struct type's `String()` rendering. -/
def typeStringFields : List (String × GoType) → String
  | [] => ""
  | [(n, t)] => n ++ " " ++ typeString t
  | (n, t) :: rest => n ++ " " ++ typeString t ++ "; " ++ typeStringFields rest
termination_by structural l => l

end

/-- Go values, shaped by kind.  `ifaceV` is an interface value: either nil
or a dynamic (type, value) pair.  `stuntV` is a `StuntDouble` holding
captured bytes.  `opaqueV` stands for values of types the embedding does
not look inside (custom-unmarshaler types, channels). -/
inductive GoValue where
  | primV (lit : String)
  | ptrV (elem : Option GoValue)
  | ifaceV (inner : Option (GoType × GoValue))
  | arrayV (elems : List GoValue)
  | sliceV (elems : List GoValue)
  | structV (fields : List GoValue)
  | mapV (entries : List (GoValue × GoValue))
  | stuntV (bs : Bytes)
  | opaqueV (payload : String)

mutual

/-- Boolean equality on `GoValue` (structural); used to model Go map key
identity in `SetMapIndex`. -/
def GoValue.beq : GoValue → GoValue → Bool
  | .primV a, .primV b => a == b
  | .ptrV none, .ptrV none => true
  | .ptrV (some a), .ptrV (some b) => GoValue.beq a b
  | .ifaceV none, .ifaceV none => true
  | .ifaceV (some (t1, v1)), .ifaceV (some (t2, v2)) => GoType.beq t1 t2 && GoValue.beq v1 v2
  | .arrayV a, .arrayV b => GoValue.beqList a b
  | .sliceV a, .sliceV b => GoValue.beqList a b
  | .structV a, .structV b => GoValue.beqList a b
  | .mapV a, .mapV b => GoValue.beqPairs a b
  | .stuntV a, .stuntV b => a == b
  | .opaqueV a, .opaqueV b => a == b
  | _, _ => false
termination_by structural a _ => a

/-- Boolean equality on value lists. -/
def GoValue.beqList : List GoValue → List GoValue → Bool
  | [], [] => true
  | a :: r1, b :: r2 => GoValue.beq a b && GoValue.beqList r1 r2
  | _, _ => false
termination_by structural a _ => a

/-- Boolean equality on key-value entry lists. -/
def GoValue.beqPairs : List (GoValue × GoValue) → List (GoValue × GoValue) → Bool
  | [], [] => true
  | (k1, v1) :: r1, (k2, v2) :: r2 =>
    GoValue.beq k1 k2 && GoValue.beq v1 v2 && GoValue.beqPairs r1 r2
  | _, _ => false
termination_by structural a _ => a

end


/-- A registered callback (`CB`, lib.go line 52): raw bytes to a concrete
(dynamically typed) value or an error.  A callback returning a nil value
makes the Go code panic at `reflect.ValueOf(i)`; the embedding's callbacks
always return a typed value. -/
abbrev CB : Type := Bytes → Except GoError (GoType × GoValue)

/-- `CBMap` (lib.go line 60): the TypeName-to-CB registry, as an
association list. -/
abbrev CBMap : Type := List (String × CB)

/-- Registry lookup, `cbs[name]`. -/
def lookupCB (cbs : CBMap) (name : String) : Option CB :=
  List.lookup name cbs

mutual

/-- `stuntdoubleType` from lib.go (lines 180-231): transforms `realType`
into its shadow type, reporting whether any `StuntDouble` substitution
occurred, or failing on unsupported kinds.  The nil-`realType` guard of
line 181 is unrepresentable here (the embedding has no nil types). -/
def stuntdoubleType (realType : GoType) (cbs : CBMap) : Except GoError (GoType × Bool) :=
  if implementsUnm realType then .ok (realType, false)
  else
    match realType with
    | .invalid => .error (.newErr "invalid kind")
    | .prim n => .ok (.prim n, false)
    | .ptr elem =>
      match stuntdoubleType elem cbs with
      | .error e => .error (.fmtWrap "stuntdoubleType(ptr elem) error" e)
      | .ok (sdEl, hasStunt) =>
        if !hasStunt then .ok (.ptr elem, hasStunt) else .ok (.ptr sdEl, hasStunt)
    | .iface n impls =>
      if (lookupCB cbs (typeString (.iface n impls))).isSome then .ok (.stunt, true)
      else .ok (.iface n impls, false)
    | .array len elem =>
      match stuntdoubleType elem cbs with
      | .error e => .error (.fmtWrap "stuntdoubleType(array elem) error" e)
      | .ok (sdEl, hasStunt) =>
        if !hasStunt then .ok (.array len elem, hasStunt) else .ok (.array len sdEl, hasStunt)
    | .slice elem =>
      match stuntdoubleType elem cbs with
      | .error e => .error (.fmtWrap "stuntdoubleType(slice elem) error" e)
      | .ok (sdEl, hasStunt) =>
        if !hasStunt then .ok (.slice elem, hasStunt) else .ok (.slice sdEl, hasStunt)
    | .struct_ fields =>
      match stuntdoubleFields fields cbs with
      | .error e => .error e
      | .ok (sdFields, hasStunt) =>
        if !hasStunt then .ok (.struct_ fields, hasStunt) else .ok (.struct_ sdFields, hasStunt)
    | .map_ k v =>
      match stuntdoubleType k cbs with
      | .error e => .error (.fmtWrap "stuntdoubleType(map key) error" e)
      | .ok (sdK, hasDK) =>
        match stuntdoubleType v cbs with
        | .error e => .error (.fmtWrap "stuntdoubleType(slice elem) error" e)
        | .ok (sdV, hasDE) =>
          if !(hasDK || hasDE) then .ok (.map_ k v, false) else .ok (.map_ sdK sdV, true)
    | .chan_ => .error (.newErr "Chan unmarshal not yet implemented")
    | .unsupported k => .error (.newErr ("Unsupported Kind: " ++ k))
    | .stunt => .ok (.stunt, false)
    | .withUnm n inner => .ok (.withUnm n inner, false)
termination_by structural realType

/-- The struct-field loop of `stuntdoubleType` (lib.go lines 213-220):
shadows every field in declaration order, keeping names and order, stopping
at the first error (wrapped with the failing field's name), and accumulates
whether any field was substituted. -/
def stuntdoubleFields (fields : List (String × GoType)) (cbs : CBMap) :
    Except GoError (List (String × GoType) × Bool) :=
  match fields with
  | [] => .ok ([], false)
  | (fname, ftype) :: rest =>
    match stuntdoubleType ftype cbs with
    | .error e => .error (.fmtWrap ("stuntdoubleType(struct field) error: " ++ fname) e)
    | .ok (sdT, hasD) =>
      match stuntdoubleFields rest cbs with
      | .error e => .error e
      | .ok (sdRest, hasRest) => .ok ((fname, sdT) :: sdRest, hasD || hasRest)
termination_by structural fields

end

/-- The `reflect.Kind` classification relevant to the reconciler's switch;
a named type's kind is its underlying type's kind, and `StuntDouble` has
kind String (it is `type StuntDouble string`). -/
inductive GoKind where
  | invalidK | primK | ptrK | ifaceK | arrayK | sliceK | structK | mapK | chanK | otherK
deriving DecidableEq

/-- `Kind()` of a type. -/
def kindOf : GoType → GoKind
  | .invalid => .invalidK
  | .prim _ => .primK
  | .ptr _ => .ptrK
  | .iface _ _ => .ifaceK
  | .array _ _ => .arrayK
  | .slice _ => .sliceK
  | .struct_ _ => .structK
  | .map_ _ _ => .mapK
  | .chan_ => .chanK
  | .unsupported _ => .otherK
  | .stunt => .primK
  | .withUnm _ inner => kindOf inner

/-- `Elem()` of a pointer, array, slice, or map type (through named types). -/
def elemOf : GoType → GoType
  | .ptr t => t
  | .array _ t => t
  | .slice t => t
  | .map_ _ v => v
  | .withUnm _ inner => elemOf inner
  | _ => .invalid

/-- `Key()` of a map type (through named types). -/
def keyOf : GoType → GoType
  | .map_ k _ => k
  | .withUnm _ inner => keyOf inner
  | _ => .invalid

/-- The struct field list of a struct type (through named types). -/
def fieldsOf : GoType → List (String × GoType)
  | .struct_ fts => fts
  | .withUnm _ inner => fieldsOf inner
  | _ => []

mutual

/-- The zero value of a type (`reflect.New(t).Elem()`). -/
def zeroValue : GoType → GoValue
  | .invalid => .opaqueV "invalid"
  | .prim _ => .primV ""
  | .ptr _ => .ptrV none
  | .iface _ _ => .ifaceV none
  | .array n t => .arrayV (List.replicate n (zeroValue t))
  | .slice _ => .sliceV []
  | .struct_ fts => .structV (zeroFields fts)
  | .map_ _ _ => .mapV []
  | .chan_ => .opaqueV "chan"
  | .unsupported k => .opaqueV k
  | .stunt => .stuntV []
  | .withUnm _ inner => zeroValue inner
termination_by structural t => t

/-- Zero values of a struct field list. -/
def zeroFields : List (String × GoType) → List GoValue
  | [] => []
  | (_, t) :: rest => zeroValue t :: zeroFields rest
termination_by structural l => l

end

/-- Go assignability (`AssignableTo`), abstracted structurally: a type is
assignable to itself, and to an interface type that records it among its
implementers (in Go this is a method-set question; the embedding keeps the
implementer list on the interface descriptor). -/
def assignable (s t : GoType) : Bool :=
  GoType.beq s t ||
    match t with
    | .iface _ impls => impls.contains (typeString s)
    | .withUnm _ (.iface _ impls) => impls.contains (typeString s)
    | _ => false

/-- Storing a value into an interface location keeps the dynamic
(type, value) pair; storing an interface value copies its dynamic pair. -/
def setIface (sdT : GoType) (sd : GoValue) : GoValue :=
  match sd with
  | .ifaceV i => .ifaceV i
  | v => .ifaceV (some (sdT, v))

/-- The effect of `real.Set(sd)` at destination type `realT`. -/
def setVal (sdT realT : GoType) (sd : GoValue) : GoValue :=
  match realT with
  | .iface _ _ => setIface sdT sd
  | .withUnm _ (.iface _ _) => setIface sdT sd
  | _ => sd

/-- The shared tail of the slice and map cases (lib.go lines 293-299 and
313-330): if the element loop failed, return its error and leave the
destination untouched (the freshly built collection is still local);
otherwise store the built collection into the destination. -/
def finishCollection {A : Type} (p : Option GoError × A) (real : GoValue)
    (mk : A → GoValue) : Option GoError × GoValue :=
  match p.1 with
  | some e => (some e, real)
  | none => (none, mk p.2)

/-- `m.SetMapIndex(k, v)`: insert, overwriting an existing equal key. -/
def mapInsert (entries : List (GoValue × GoValue)) (k v : GoValue) :
    List (GoValue × GoValue) :=
  match entries with
  | [] => [(k, v)]
  | (k0, v0) :: rest =>
    if GoValue.beq k0 k then (k0, v) :: rest else (k0, v0) :: mapInsert rest k v

mutual

/-- `stuntdoubleToReal` from lib.go (lines 236-334): reconciles a decoded
shadow value `sd` (of type `sdT`) into the real destination `real` (of type
`realT`), invoking registered callbacks at `StuntDouble` nodes.  The result
is the optional error together with the updated destination value (Go
mutates `real` in place; on error the destination keeps the partial updates
already applied, exactly as the code leaves them).  `CanSet` checks are
modeled as passing: every destination reached from `Unmarshal` is settable.
States where a `reflect` accessor would panic (value shape not matching its
type, possible here only because the generic decoder is abstract) return an
error whose message starts with `reflect panic:`. -/
def stuntdoubleToReal (cbs : CBMap) (sdT : GoType) (sd : GoValue) (realT : GoType)
    (real : GoValue) : Option GoError × GoValue :=
  if GoType.beq sdT .stunt then
    match lookupCB cbs (typeString realT) with
    | some cb =>
      match sd with
      | .stuntV bs =>
        match cb bs with
        | .error e => (some (.cbErr e), real)
        | .ok p => sdrAfterCB cbs p.1 p.2 realT real
      | _ => (some (.newErr "reflect panic: StuntDouble value expected"), real)
    | none => sdrAfterCB cbs sdT sd realT real
  else sdrAfterCB cbs sdT sd realT real
termination_by (sizeOf realT, 2, 0)

/-- The part of `stuntdoubleToReal` after the callback step (lib.go lines
246-333): the pointer-unmarshaler check, then the switch on the destination
kind.  A `withUnm` destination dispatches on its underlying type, mirroring
the switch on `real.Kind()` (this arm is unreachable from `Unmarshal`: a
`withUnm` destination is always paired with a `withUnm` shadow, which the
unmarshaler check intercepts). -/
def sdrAfterCB (cbs : CBMap) (sdT : GoType) (sd : GoValue) (realT : GoType)
    (real : GoValue) : Option GoError × GoValue :=
  if implementsUnm sdT then
    if !(assignable sdT realT) then (some (.newErr "cb result not assignable"), real)
    else (none, setVal sdT realT sd)
  else
    match realT with
    | .invalid => (some (.newErr "invalid kind"), real)
    | .prim n =>
      if !(assignable sdT (.prim n)) then (some (.newErr "cb result not assignable"), real)
      else (none, sd)
    | .stunt =>
      if !(assignable sdT .stunt) then (some (.newErr "cb result not assignable"), real)
      else (none, sd)
    | .ptr relT =>
      if kindOf sdT != GoKind.ptrK then
        (some (.newErr "Incompatible stuntdouble and real kinds"), real)
      else
        match sd with
        | .ptrV none =>
          match real with
          | .ptrV none => (none, real)
          | _ => (none, .ptrV none)
        | .ptrV (some sv) =>
          match real with
          | .ptrV ro =>
            let r := stuntdoubleToReal cbs (elemOf sdT) sv relT
                (match ro with | some rv => rv | none => zeroValue relT)
            (r.1, .ptrV (some r.2))
          | _ => (some (.newErr "reflect panic: pointer value expected"), real)
        | _ => (some (.newErr "reflect panic: pointer value expected"), real)
    | .iface n impls =>
      if !(assignable sdT (.iface n impls)) then
        (some (.newErr "cb result not assignable"), real)
      else (none, setIface sdT sd)
    | .array _ relT =>
      if !(kindOf sdT == GoKind.arrayK || kindOf sdT == GoKind.sliceK) then
        (some (.newErr "Incompatible stuntdouble and real kinds"), real)
      else
        match sd, real with
        | .arrayV ses, .arrayV res =>
          if ses.length != res.length then (some (.newErr "unequal array lengths"), real)
          else
            let r := walkElems cbs (elemOf sdT) relT "array element stuntdoubleToReal error" ses res
            (r.1, .arrayV r.2)
        | .sliceV ses, .arrayV res =>
          if ses.length != res.length then (some (.newErr "unequal array lengths"), real)
          else
            let r := walkElems cbs (elemOf sdT) relT "array element stuntdoubleToReal error" ses res
            (r.1, .arrayV r.2)
        | _, _ => (some (.newErr "reflect panic: sequence value expected"), real)
    | .slice relT =>
      if !(kindOf sdT == GoKind.arrayK || kindOf sdT == GoKind.sliceK) then
        (some (.newErr "Incompatible stuntdouble and real kinds"), real)
      else
        match sd with
        | .arrayV ses =>
          finishCollection
            (walkElems cbs (elemOf sdT) relT "slice element stuntdoubleToReal error" ses
              (List.replicate ses.length (zeroValue relT))) real .sliceV
        | .sliceV ses =>
          finishCollection
            (walkElems cbs (elemOf sdT) relT "slice element stuntdoubleToReal error" ses
              (List.replicate ses.length (zeroValue relT))) real .sliceV
        | _ => (some (.newErr "reflect panic: sequence value expected"), real)
    | .struct_ rfts =>
      if kindOf sdT != GoKind.structK then
        (some (.newErr "Incompatible stuntdouble and real kinds"), real)
      else if (fieldsOf sdT).length != rfts.length then
        (some (.newErr "unequal struct NumFields"), real)
      else
        match sd, real with
        | .structV svs, .structV rvs =>
          let r := walkFields cbs (fieldsOf sdT) svs rfts rvs
          (r.1, .structV r.2)
        | _, _ => (some (.newErr "reflect panic: struct value expected"), real)
    | .map_ rkT rvT =>
      if kindOf sdT != GoKind.mapK then
        (some (.newErr "Incompatible stuntdouble and real kinds"), real)
      else
        match sd with
        | .mapV entries =>
          finishCollection
            (walkMapEntries cbs (keyOf sdT) (elemOf sdT) rkT rvT entries []) real .mapV
        | _ => (some (.newErr "reflect panic: map value expected"), real)
    | .chan_ => (some (.newErr "Chan unmarshal not yet implemented"), real)
    | .unsupported k => (some (.newErr ("Unsupported Kind: " ++ k)), real)
    | .withUnm _ inner => sdrAfterCB cbs sdT sd inner real
termination_by (sizeOf realT, 1, 0)

/-- The element loops of the array and slice cases (lib.go lines 286-288 and
294-296): lock-step reconciliation of element lists, wrapping a failing
element's error with `fmtErr msg` and keeping the updates already applied. -/
def walkElems (cbs : CBMap) (sdElT relT : GoType) (msg : String) :
    List GoValue → List GoValue → Option GoError × List GoValue
  | [], [] => (none, [])
  | s :: ss, r :: rs =>
    let r1 := stuntdoubleToReal cbs sdElT s relT r
    match r1.1 with
    | some e => (some (fmtErr msg e), r1.2 :: rs)
    | none =>
      let rr := walkElems cbs sdElT relT msg ss rs
      (rr.1, r1.2 :: rr.2)
  | _, rs => (some (.newErr "reflect panic: element count mismatch"), rs)
termination_by sds _ => (sizeOf relT, 3, sds.length)

/-- The struct field loop (lib.go lines 304-308): names are compared
positionally, then each field pair is reconciled in order. -/
def walkFields (cbs : CBMap) :
    List (String × GoType) → List GoValue → List (String × GoType) → List GoValue →
    Option GoError × List GoValue
  | [], [], [], [] => (none, [])
  | (sn, st) :: sfs, sv :: svs, (rn, rt) :: rfs, rv :: rvs =>
    if sn != rn then (some (.newErr "unequal struct field names"), rv :: rvs)
    else
      let r1 := stuntdoubleToReal cbs st sv rt rv
      match r1.1 with
      | some e => (some (fmtErr "struct field stuntdoubleToReal error" e), r1.2 :: rvs)
      | none =>
        let rr := walkFields cbs sfs svs rfs rvs
        (rr.1, r1.2 :: rr.2)
  | _, _, _, rvs => (some (.newErr "reflect panic: field count mismatch"), rvs)
termination_by _ _ rfts _ => (sizeOf rfts, 0, 0)

/-- The map entry loop (lib.go lines 320-327): each shadow key and value is
reconciled into freshly zeroed real key/value slots, then inserted into the
map under construction; the first error aborts with the appropriate wrap. -/
def walkMapEntries (cbs : CBMap) (sdkT sdvT rkT rvT : GoType) :
    List (GoValue × GoValue) → List (GoValue × GoValue) →
    Option GoError × List (GoValue × GoValue)
  | [], acc => (none, acc)
  | (dk, dv) :: rest, acc =>
    let rk := stuntdoubleToReal cbs sdkT dk rkT (zeroValue rkT)
    match rk.1 with
    | some e => (some (fmtErr "map key stuntdoubleToReal error" e), acc)
    | none =>
      let rv := stuntdoubleToReal cbs sdvT dv rvT (zeroValue rvT)
      match rv.1 with
      | some e => (some (fmtErr "map val stuntdoubleToReal error" e), acc)
      | none => walkMapEntries cbs sdkT sdvT rkT rvT rest (mapInsert acc rk.2 rv.2)
termination_by es _ => (sizeOf (GoType.map_ rkT rvT), 0, es.length)

end

/-- The behavior of the external generic decoder (`encoding/json.Unmarshal`),
abstracted as a function of the input bytes, the destination type, and the
destination's current value, returning an optional error together with the
(possibly partially) updated destination value. -/
abbrev JsonDecoder : Type := Bytes → GoType → GoValue → Option GoError × GoValue

/-- The pointee of a non-nil pointer value, with a fallback. -/
def pointeeOf (v : GoValue) (dflt : GoValue) : GoValue :=
  match v with
  | .ptrV (some x) => x
  | _ => dflt

/-- `Unmarshal` from lib.go (lines 162-175), parameterized by the generic
decoder.  The destination is modeled directly as the typed location behind
the caller's pointer; the nil/invalid `destPtr` guards of lines 163-167
reject malformed pointers before any decoding and are unrepresentable here
(the embedding's destinations are always valid typed locations).  Returns
the optional error and the destination's final state. -/
def Unmarshal (jdec : JsonDecoder) (bs : Bytes) (destType : GoType) (destVal : GoValue)
    (cbs : CBMap) : Option GoError × GoValue :=
  match stuntdoubleType destType cbs with
  | .error e => (some (.fmtWrap "stuntdoubleType error" e), destVal)
  | .ok (sdT, hasStunt) =>
    if !hasStunt then jdec bs destType destVal
    else
      match jdec bs sdT (zeroValue sdT) with
      | (some e, _) => (some (.fmtWrap "json.Unmarshal error" e), destVal)
      | (none, sdv) =>
        match stuntdoubleToReal cbs (.ptr sdT) (.ptrV (some sdv)) (.ptr destType)
            (.ptrV (some destVal)) with
        | (none, rv) => (none, pointeeOf rv destVal)
        | (some e, rv) =>
          (some (unwrapCBErr (fmtErr "stuntdoubleToReal error" e)), pointeeOf rv destVal)

/-- `StuntDouble` (lib.go line 95) is `type StuntDouble string`; modeled by
the bytes it holds. -/
abbrev StuntDouble : Type := Bytes

/-- `StuntDouble.MarshalJSON` (lib.go lines 96-99): an empty capture
marshals as the literal `null`, any other capture marshals as its bytes. -/
def StuntDouble.MarshalJSON (me : StuntDouble) : Except GoError Bytes :=
  if List.length me = 0 then .ok nullBytes else .ok me

/-- `StuntDouble.UnmarshalJSON` (lib.go lines 100-104), on the pointer
receiver (`none` is the nil pointer): stores the incoming bytes verbatim.
Returns the new pointee. -/
def StuntDouble.UnmarshalJSON (me : Option StuntDouble) (bs : Bytes) :
    Except GoError StuntDouble :=
  match me with
  | none => .error (.newErr "jsonface.StuntDouble: UnmarshalJSON on nil pointer")
  | some _ => .ok bs

/-- The outcome of a registration attempt: a Go panic, or the updated
registry. -/
inductive AddResult where
  | panicked (e : GoError)
  | updated (m : CBMap)

/-- `AddGlobalCB` (lib.go lines 120-124), as a function of the global
registry state it guards (the mutex serializes registrations; a duplicate
name panics before the map is written). -/
def AddGlobalCB (m : CBMap) (name : String) (cb : CB) : AddResult :=
  if (lookupCB m name).isSome then .panicked (.newErr "CB already defined")
  else .updated (m ++ [(name, cb)])

mutual

/-- Whether the type graph of `t` contains a polymorphic (interface) slot
whose qualified name is registered in `cbs`, descending through every
composite kind including custom-unmarshaler types. -/
def hasCoveredSlot (t : GoType) (cbs : CBMap) : Bool :=
  match t with
  | .iface n _ => (lookupCB cbs n).isSome
  | .ptr e => hasCoveredSlot e cbs
  | .array _ e => hasCoveredSlot e cbs
  | .slice e => hasCoveredSlot e cbs
  | .struct_ fts => hasCoveredSlotFields fts cbs
  | .map_ k v => hasCoveredSlot k cbs || hasCoveredSlot v cbs
  | .withUnm _ inner => hasCoveredSlot inner cbs
  | _ => false
termination_by structural t

/-- Field-list companion of `hasCoveredSlot`. -/
def hasCoveredSlotFields (fts : List (String × GoType)) (cbs : CBMap) : Bool :=
  match fts with
  | [] => false
  | (_, ft) :: rest => hasCoveredSlot ft cbs || hasCoveredSlotFields rest cbs
termination_by structural fts

end

mutual

/-- Structural isomorphism between a real type and its shadow: nodes agree
everywhere except that a registered interface slot becomes `StuntDouble`;
custom-unmarshaler types and unregistered interface slots are kept whole;
composite kinds are isomorphic componentwise, with array lengths preserved
and struct fields preserved in name, order, and count. -/
inductive ShadowIso (cbs : CBMap) : GoType → GoType → Prop where
  | unm (t : GoType) (h : implementsUnm t = true) : ShadowIso cbs t t
  | prim (n : String) : ShadowIso cbs (.prim n) (.prim n)
  | ifaceHit (n : String) (impls : List String)
      (h : (lookupCB cbs n).isSome = true) : ShadowIso cbs (.iface n impls) .stunt
  | ifaceMiss (n : String) (impls : List String)
      (h : (lookupCB cbs n).isSome = false) :
      ShadowIso cbs (.iface n impls) (.iface n impls)
  | ptr (t s : GoType) (h : ShadowIso cbs t s) : ShadowIso cbs (.ptr t) (.ptr s)
  | array (len : Nat) (t s : GoType) (h : ShadowIso cbs t s) :
      ShadowIso cbs (.array len t) (.array len s)
  | slice (t s : GoType) (h : ShadowIso cbs t s) :
      ShadowIso cbs (.slice t) (.slice s)
  | struct_ (fts sfts : List (String × GoType)) (h : ShadowIsoFields cbs fts sfts) :
      ShadowIso cbs (.struct_ fts) (.struct_ sfts)
  | map_ (k v k2 v2 : GoType) (hk : ShadowIso cbs k k2) (hv : ShadowIso cbs v v2) :
      ShadowIso cbs (.map_ k v) (.map_ k2 v2)

/-- Field-list companion of `ShadowIso`: same length, same names in the
same order, componentwise isomorphic types. -/
inductive ShadowIsoFields (cbs : CBMap) :
    List (String × GoType) → List (String × GoType) → Prop where
  | nil : ShadowIsoFields cbs [] []
  | cons (n : String) (t s : GoType) (r1 r2 : List (String × GoType))
      (h : ShadowIso cbs t s) (hr : ShadowIsoFields cbs r1 r2) :
      ShadowIsoFields cbs ((n, t) :: r1) ((n, s) :: r2)

end

/-- A callback used by the concrete witnesses below. -/
def demoCB : CB := fun bs => .ok (.prim "int", .primV (toString bs.length))

/-- A concrete registry used by the witnesses: two registered names. -/
def cbsDemo : CBMap := [("p.I", demoCB), ("p.T", demoCB)]

/-- A destination type whose graph contains a channel field and no
registry-covered slot. -/
def chanStructT : GoType := .struct_ [("C", .chan_)]

/-- A generic-decoder behavior that succeeds leaving the destination
unchanged — the behavior of `encoding/json.Unmarshal` on the input `{}`
against a struct destination (no field of the input forces decoding into
the channel field). -/
def jdOk : JsonDecoder := fun _ _ v => (none, v)

/-- The bytes of the literal `{}`. -/
def emptyObjBytes : Bytes := [123, 125]

/-- A resolver that rejects its input, used by the concrete reconciliation
witnesses (after the rejecting example resolvers of the repository's
examples). -/
def failCB : CB := fun _ => .error (.newErr "Negative Radius")

/-- A registry carrying only the rejecting resolver. -/
def cbsFail : CBMap := [("q.I", failCB)]

/-- A destination whose registered slot sits three levels deep:
struct → slice → struct → interface. -/
def deepT : GoType := .struct_ [("Outer", .slice (.struct_ [("I", .iface "q.I" [])]))]

/-- A generic-decoder behavior for `deepT`'s shadow: it produces one
element whose placeholder captured the byte `51`. -/
def jdDeep : JsonDecoder := fun _ _ _ =>
  (none, .structV [.sliceV [.structV [.stuntV [51]]]])

/-- Modelled from the spec: the behavior of the external generic decoder
(`encoding/json`, which is not part of this repository) on a bare
interface destination — "decoding a null value into it succeeds; decoding
a non-null value into it fails with a generic-decode error"; a JSON null
sets the interface value to nil. -/
def genericDecodeBareIface : JsonDecoder := fun bs _ v =>
  if bs = nullBytes then (none, .ifaceV none)
  else (some (.newErr "json: cannot unmarshal into Go interface value"), v)

mutual

theorem GoType.beq_iff (a b : GoType) : GoType.beq a b = true ↔ a = b := by
  cases a with
  | invalid => cases b <;> simp [GoType.beq]
  | prim n => cases b <;> simp [GoType.beq]
  | ptr e =>
    cases b with
    | ptr e2 => rw [GoType.beq, GoType.beq_iff e e2]; simp
    | _ => simp [GoType.beq]
  | iface n i => cases b <;> simp [GoType.beq]
  | array l e =>
    cases b with
    | array l2 e2 => rw [GoType.beq, Bool.and_eq_true, GoType.beq_iff e e2]; simp
    | _ => simp [GoType.beq]
  | slice e =>
    cases b with
    | slice e2 => rw [GoType.beq, GoType.beq_iff e e2]; simp
    | _ => simp [GoType.beq]
  | struct_ f =>
    cases b with
    | struct_ f2 => rw [GoType.beq, GoType.beqFields_iff f f2]; simp
    | _ => simp [GoType.beq]
  | map_ k v =>
    cases b with
    | map_ k2 v2 =>
      rw [GoType.beq, Bool.and_eq_true, GoType.beq_iff k k2, GoType.beq_iff v v2]; simp
    | _ => simp [GoType.beq]
  | chan_ => cases b <;> simp [GoType.beq]
  | unsupported s => cases b <;> simp [GoType.beq]
  | stunt => cases b <;> simp [GoType.beq]
  | withUnm n t =>
    cases b with
    | withUnm n2 t2 => rw [GoType.beq, Bool.and_eq_true, GoType.beq_iff t t2]; simp
    | _ => simp [GoType.beq]

theorem GoType.beqFields_iff (l1 l2 : List (String × GoType)) :
    GoType.beqFields l1 l2 = true ↔ l1 = l2 := by
  match l1, l2 with
  | [], [] => simp [GoType.beqFields]
  | [], _ :: _ => simp [GoType.beqFields]
  | _ :: _, [] => simp [GoType.beqFields]
  | (n1, t1) :: r1, (n2, t2) :: r2 =>
    rw [GoType.beqFields, Bool.and_eq_true, Bool.and_eq_true,
      GoType.beq_iff t1 t2, GoType.beqFields_iff r1 r2]
    simp

end

mutual

/-- Soundness of the shadow-shape deriver, by induction mirroring its
recursion: on success, the reported boolean is `false` exactly when the
returned type is the input itself, `true` exactly when it differs, and the
returned type is shadow-isomorphic to the input. -/
theorem sdType_sound (t : GoType) (cbs : CBMap) (s : GoType) (b : Bool)
    (h : stuntdoubleType t cbs = .ok (s, b)) :
    (b = false → s = t) ∧ (b = true → s ≠ t) ∧ ShadowIso cbs t s := by
  cases t with
  | invalid => simp [stuntdoubleType, implementsUnm] at h
  | prim n =>
    simp [stuntdoubleType, implementsUnm] at h
    obtain ⟨h1, h2⟩ := h
    subst h1; subst h2
    exact ⟨fun _ => rfl, by simp, ShadowIso.prim n⟩
  | ptr e =>
    simp only [stuntdoubleType, implementsUnm, Bool.false_eq_true, if_false] at h
    cases he : stuntdoubleType e cbs with
    | error err => rw [he] at h; simp at h
    | ok p =>
      obtain ⟨sdEl, hS⟩ := p
      rw [he] at h
      obtain ⟨ih1, ih2, ih3⟩ := sdType_sound e cbs sdEl hS he
      cases hS with
      | false =>
        simp at h
        obtain ⟨h1, h2⟩ := h
        subst h1; subst h2
        exact ⟨fun _ => rfl, by simp, ShadowIso.ptr e e (ih1 rfl ▸ ih3)⟩
      | true =>
        simp at h
        obtain ⟨h1, h2⟩ := h
        subst h1; subst h2
        refine ⟨by simp, fun _ hc => ?_, ShadowIso.ptr e sdEl ih3⟩
        exact ih2 rfl (by injection hc)
  | iface n impls =>
    simp only [stuntdoubleType, implementsUnm, Bool.false_eq_true, if_false] at h
    cases hl : (lookupCB cbs (typeString (.iface n impls))).isSome with
    | false =>
      rw [hl] at h; simp at h
      obtain ⟨h1, h2⟩ := h
      subst h1; subst h2
      exact ⟨fun _ => rfl, by simp, ShadowIso.ifaceMiss n impls hl⟩
    | true =>
      rw [hl] at h; simp at h
      obtain ⟨h1, h2⟩ := h
      subst h1; subst h2
      exact ⟨by simp, fun _ hc => by simp at hc, ShadowIso.ifaceHit n impls hl⟩
  | array len e =>
    simp only [stuntdoubleType, implementsUnm, Bool.false_eq_true, if_false] at h
    cases he : stuntdoubleType e cbs with
    | error err => rw [he] at h; simp at h
    | ok p =>
      obtain ⟨sdEl, hS⟩ := p
      rw [he] at h
      obtain ⟨ih1, ih2, ih3⟩ := sdType_sound e cbs sdEl hS he
      cases hS with
      | false =>
        simp at h
        obtain ⟨h1, h2⟩ := h
        subst h1; subst h2
        exact ⟨fun _ => rfl, by simp, ShadowIso.array len e e (ih1 rfl ▸ ih3)⟩
      | true =>
        simp at h
        obtain ⟨h1, h2⟩ := h
        subst h1; subst h2
        refine ⟨by simp, fun _ hc => ?_, ShadowIso.array len e sdEl ih3⟩
        exact ih2 rfl (by injection hc)
  | slice e =>
    simp only [stuntdoubleType, implementsUnm, Bool.false_eq_true, if_false] at h
    cases he : stuntdoubleType e cbs with
    | error err => rw [he] at h; simp at h
    | ok p =>
      obtain ⟨sdEl, hS⟩ := p
      rw [he] at h
      obtain ⟨ih1, ih2, ih3⟩ := sdType_sound e cbs sdEl hS he
      cases hS with
      | false =>
        simp at h
        obtain ⟨h1, h2⟩ := h
        subst h1; subst h2
        exact ⟨fun _ => rfl, by simp, ShadowIso.slice e e (ih1 rfl ▸ ih3)⟩
      | true =>
        simp at h
        obtain ⟨h1, h2⟩ := h
        subst h1; subst h2
        refine ⟨by simp, fun _ hc => ?_, ShadowIso.slice e sdEl ih3⟩
        exact ih2 rfl (by injection hc)
  | struct_ fts =>
    simp only [stuntdoubleType, implementsUnm, Bool.false_eq_true, if_false] at h
    cases he : stuntdoubleFields fts cbs with
    | error err => rw [he] at h; simp at h
    | ok p =>
      obtain ⟨sdFts, hS⟩ := p
      rw [he] at h
      obtain ⟨ih1, ih2, ih3⟩ := sdFields_sound fts cbs sdFts hS he
      cases hS with
      | false =>
        simp at h
        obtain ⟨h1, h2⟩ := h
        subst h1; subst h2
        exact ⟨fun _ => rfl, by simp, ShadowIso.struct_ fts fts (ih1 rfl ▸ ih3)⟩
      | true =>
        simp at h
        obtain ⟨h1, h2⟩ := h
        subst h1; subst h2
        refine ⟨by simp, fun _ hc => ?_, ShadowIso.struct_ fts sdFts ih3⟩
        exact ih2 rfl (by injection hc)
  | map_ k v =>
    simp only [stuntdoubleType, implementsUnm, Bool.false_eq_true, if_false] at h
    cases hk : stuntdoubleType k cbs with
    | error err => rw [hk] at h; simp at h
    | ok pk =>
      obtain ⟨sdK, hDK⟩ := pk
      rw [hk] at h
      cases hv : stuntdoubleType v cbs with
      | error err => rw [hv] at h; simp at h
      | ok pv =>
        obtain ⟨sdV, hDE⟩ := pv
        rw [hv] at h
        obtain ⟨ihk1, ihk2, ihk3⟩ := sdType_sound k cbs sdK hDK hk
        obtain ⟨ihv1, ihv2, ihv3⟩ := sdType_sound v cbs sdV hDE hv
        cases hDK with
        | false =>
          cases hDE with
          | false =>
            simp at h
            obtain ⟨h1, h2⟩ := h
            subst h1; subst h2
            exact ⟨fun _ => rfl, by simp,
              ShadowIso.map_ k v k v (ihk1 rfl ▸ ihk3) (ihv1 rfl ▸ ihv3)⟩
          | true =>
            simp at h
            obtain ⟨h1, h2⟩ := h
            subst h1; subst h2
            refine ⟨by simp, fun _ hc => ?_, ShadowIso.map_ k v sdK sdV ihk3 ihv3⟩
            exact ihv2 rfl (by simp at hc; exact hc.2)
        | true =>
          simp at h
          obtain ⟨h1, h2⟩ := h
          subst h1; subst h2
          refine ⟨by simp, fun _ hc => ?_, ShadowIso.map_ k v sdK sdV ihk3 ihv3⟩
          exact ihk2 rfl (by simp at hc; exact hc.1)
  | chan_ => simp [stuntdoubleType, implementsUnm] at h
  | unsupported kn => simp [stuntdoubleType, implementsUnm] at h
  | stunt =>
    simp [stuntdoubleType, implementsUnm] at h
    obtain ⟨h1, h2⟩ := h
    subst h1; subst h2
    exact ⟨fun _ => rfl, by simp, ShadowIso.unm .stunt rfl⟩
  | withUnm n inner =>
    simp [stuntdoubleType, implementsUnm] at h
    obtain ⟨h1, h2⟩ := h
    subst h1; subst h2
    exact ⟨fun _ => rfl, by simp, ShadowIso.unm (.withUnm n inner) rfl⟩

/-- Field-list companion of `sdType_sound`. -/
theorem sdFields_sound (fts : List (String × GoType)) (cbs : CBMap)
    (sfts : List (String × GoType)) (b : Bool)
    (h : stuntdoubleFields fts cbs = .ok (sfts, b)) :
    (b = false → sfts = fts) ∧ (b = true → sfts ≠ fts) ∧ ShadowIsoFields cbs fts sfts := by
  match fts with
  | [] =>
    simp [stuntdoubleFields] at h
    obtain ⟨h1, h2⟩ := h
    subst h1; subst h2
    exact ⟨fun _ => rfl, by simp, ShadowIsoFields.nil⟩
  | (fname, ftype) :: rest =>
    simp only [stuntdoubleFields] at h
    cases hf : stuntdoubleType ftype cbs with
    | error err => rw [hf] at h; simp at h
    | ok pf =>
      obtain ⟨sdT, hD⟩ := pf
      rw [hf] at h
      cases hr : stuntdoubleFields rest cbs with
      | error err => rw [hr] at h; simp at h
      | ok pr =>
        obtain ⟨sdRest, hRest⟩ := pr
        rw [hr] at h
        simp at h
        obtain ⟨h1, h2⟩ := h
        subst h1; subst h2
        obtain ⟨ihf1, ihf2, ihf3⟩ := sdType_sound ftype cbs sdT hD hf
        obtain ⟨ihr1, ihr2, ihr3⟩ := sdFields_sound rest cbs sdRest hRest hr
        refine ⟨?_, ?_, ShadowIsoFields.cons fname ftype sdT rest sdRest ihf3 ihr3⟩
        · intro hb
          rw [Bool.or_eq_false_iff] at hb
          rw [ihf1 hb.1, ihr1 hb.2]
        · intro hb hc
          injection hc with hc1 hc2
          cases hD with
          | true => exact ihf2 rfl (by simp at hc1; exact hc1)
          | false =>
            cases hRest with
            | true => exact ihr2 rfl hc2
            | false => simp at hb

end

mutual

/-- A type graph with no registry-covered polymorphic slot never needs a
shadow: on success the deriver reports `needsShadow = false`. -/
theorem sdType_noCovered (t : GoType) (cbs : CBMap)
    (hnc : hasCoveredSlot t cbs = false) (s : GoType) (b : Bool)
    (h : stuntdoubleType t cbs = .ok (s, b)) : b = false := by
  cases t with
  | invalid => simp [stuntdoubleType, implementsUnm] at h
  | prim n => simp [stuntdoubleType, implementsUnm] at h; exact h.2
  | ptr e =>
    simp only [stuntdoubleType, implementsUnm, Bool.false_eq_true, if_false] at h
    simp only [hasCoveredSlot] at hnc
    cases he : stuntdoubleType e cbs with
    | error err => rw [he] at h; simp at h
    | ok p =>
      obtain ⟨sdEl, hS⟩ := p
      rw [he] at h
      have hb := sdType_noCovered e cbs hnc sdEl hS he
      subst hb
      simp at h
      exact h.2
  | iface n impls =>
    simp only [stuntdoubleType, implementsUnm, Bool.false_eq_true, if_false] at h
    simp only [hasCoveredSlot] at hnc
    rw [show typeString (.iface n impls) = n from rfl, hnc] at h
    simp at h
    exact h.2
  | array len e =>
    simp only [stuntdoubleType, implementsUnm, Bool.false_eq_true, if_false] at h
    simp only [hasCoveredSlot] at hnc
    cases he : stuntdoubleType e cbs with
    | error err => rw [he] at h; simp at h
    | ok p =>
      obtain ⟨sdEl, hS⟩ := p
      rw [he] at h
      have hb := sdType_noCovered e cbs hnc sdEl hS he
      subst hb
      simp at h
      exact h.2
  | slice e =>
    simp only [stuntdoubleType, implementsUnm, Bool.false_eq_true, if_false] at h
    simp only [hasCoveredSlot] at hnc
    cases he : stuntdoubleType e cbs with
    | error err => rw [he] at h; simp at h
    | ok p =>
      obtain ⟨sdEl, hS⟩ := p
      rw [he] at h
      have hb := sdType_noCovered e cbs hnc sdEl hS he
      subst hb
      simp at h
      exact h.2
  | struct_ fts =>
    simp only [stuntdoubleType, implementsUnm, Bool.false_eq_true, if_false] at h
    simp only [hasCoveredSlot] at hnc
    cases he : stuntdoubleFields fts cbs with
    | error err => rw [he] at h; simp at h
    | ok p =>
      obtain ⟨sdFts, hS⟩ := p
      rw [he] at h
      have hb := sdFields_noCovered fts cbs hnc sdFts hS he
      subst hb
      simp at h
      exact h.2
  | map_ k v =>
    simp only [stuntdoubleType, implementsUnm, Bool.false_eq_true, if_false] at h
    simp only [hasCoveredSlot, Bool.or_eq_false_iff] at hnc
    cases hk : stuntdoubleType k cbs with
    | error err => rw [hk] at h; simp at h
    | ok pk =>
      obtain ⟨sdK, hDK⟩ := pk
      rw [hk] at h
      cases hv : stuntdoubleType v cbs with
      | error err => rw [hv] at h; simp at h
      | ok pv =>
        obtain ⟨sdV, hDE⟩ := pv
        rw [hv] at h
        have hbk := sdType_noCovered k cbs hnc.1 sdK hDK hk
        have hbv := sdType_noCovered v cbs hnc.2 sdV hDE hv
        subst hbk; subst hbv
        simp at h
        exact h.2
  | chan_ => simp [stuntdoubleType, implementsUnm] at h
  | unsupported kn => simp [stuntdoubleType, implementsUnm] at h
  | stunt => simp [stuntdoubleType, implementsUnm] at h; exact h.2
  | withUnm n inner => simp [stuntdoubleType, implementsUnm] at h; exact h.2

/-- Field-list companion of `sdType_noCovered`. -/
theorem sdFields_noCovered (fts : List (String × GoType)) (cbs : CBMap)
    (hnc : hasCoveredSlotFields fts cbs = false) (sfts : List (String × GoType)) (b : Bool)
    (h : stuntdoubleFields fts cbs = .ok (sfts, b)) : b = false := by
  match fts with
  | [] => simp [stuntdoubleFields] at h; exact h.2
  | (fname, ftype) :: rest =>
    simp only [stuntdoubleFields] at h
    simp only [hasCoveredSlotFields, Bool.or_eq_false_iff] at hnc
    cases hf : stuntdoubleType ftype cbs with
    | error err => rw [hf] at h; simp at h
    | ok pf =>
      obtain ⟨sdT, hD⟩ := pf
      rw [hf] at h
      cases hr : stuntdoubleFields rest cbs with
      | error err => rw [hr] at h; simp at h
      | ok pr =>
        obtain ⟨sdRest, hRest⟩ := pr
        rw [hr] at h
        have hbf := sdType_noCovered ftype cbs hnc.1 sdT hD hf
        have hbr := sdFields_noCovered rest cbs hnc.2 sdRest hRest hr
        subst hbf; subst hbr
        simp at h
        exact h.2

end

/-- C1 (as stated, refuted): a destination type containing a channel —
a type graph with no registry-covered polymorphic slot — makes `Unmarshal`
fail with a `stuntdoubleType error` on every input, while the raw generic
decoder succeeds on the input `{}` without touching the channel field, so
the two do not return the same result. -/
theorem claim_C1_counterexample :
    hasCoveredSlot chanStructT [] = false ∧
    (jdOk emptyObjBytes chanStructT (zeroValue chanStructT)).1 = none ∧
    (Unmarshal jdOk emptyObjBytes chanStructT (zeroValue chanStructT) []).1 =
      some (.fmtWrap "stuntdoubleType error"
        (.fmtWrap "stuntdoubleType(struct field) error: C"
          (.newErr "Chan unmarshal not yet implemented"))) :=
  ⟨rfl, rfl, rfl⟩

/-- C1 (amended): for every destination type whose graph contains no
registry-covered polymorphic slot and on which the shadow-shape derivation
succeeds (no channel or otherwise unsupported kind), `Unmarshal` delegates
to the generic decoder: identical result and identical destination state,
for every input and every generic-decoder behavior. -/
theorem claim_C1_fast_path (jdec : JsonDecoder) (bs : Bytes) (t : GoType) (v : GoValue)
    (cbs : CBMap) (s : GoType) (b : Bool)
    (hnc : hasCoveredSlot t cbs = false)
    (hok : stuntdoubleType t cbs = .ok (s, b)) :
    Unmarshal jdec bs t v cbs = jdec bs t v := by
  have hb := sdType_noCovered t cbs hnc s b hok
  subst hb
  simp [Unmarshal, hok]

/-- C1 witness: a struct with an unregistered interface slot and a string
field, against a non-empty registry, takes the fast path. -/
theorem claim_C1_witness :
    Unmarshal jdOk nullBytes (.struct_ [("J", .iface "p.J" []), ("S", .prim "string")])
        (.structV [.ifaceV none, .primV ""]) cbsDemo =
      jdOk nullBytes (.struct_ [("J", .iface "p.J" []), ("S", .prim "string")])
        (.structV [.ifaceV none, .primV ""]) :=
  claim_C1_fast_path jdOk nullBytes _ _ cbsDemo
    (.struct_ [("J", .iface "p.J" []), ("S", .prim "string")]) false rfl rfl

/-- C3: custom-unmarshaler precedence — a type that (itself or via its
pointer type) implements `json.Unmarshaler` or `encoding.TextUnmarshaler`
is returned unchanged by `stuntdoubleType` with `needsShadow = false` and
no error, for every registry, without descending into it (so even when the
type itself, or a slot nested inside it, has a registered resolver). -/
theorem claim_C3_custom_unmarshaler_precedence (t : GoType) (cbs : CBMap)
    (h : implementsUnm t = true) :
    stuntdoubleType t cbs = .ok (t, false) := by
  cases t <;> simp_all [stuntdoubleType, implementsUnm]

/-- C3 witness: a custom-unmarshaler type whose own name is registered and
which contains a registered interface slot is still returned unchanged. -/
theorem claim_C3_witness :
    implementsUnm (GoType.withUnm "p.T" (.struct_ [("I", .iface "p.I" [])])) = true ∧
    stuntdoubleType (GoType.withUnm "p.T" (.struct_ [("I", .iface "p.I" [])])) cbsDemo =
      .ok (GoType.withUnm "p.T" (.struct_ [("I", .iface "p.I" [])]), false) :=
  ⟨rfl, claim_C3_custom_unmarshaler_precedence _ cbsDemo rfl⟩

/-- C4: interface-slot substitution — a (plain) interface type becomes the
`StuntDouble` placeholder with `needsShadow = true` when its qualified name
is registered, and is returned unchanged with `needsShadow = false` and no
error when it is not. -/
theorem claim_C4_interface_slot_substitution (n : String) (impls : List String)
    (cbs : CBMap) :
    ((lookupCB cbs n).isSome = true →
      stuntdoubleType (.iface n impls) cbs = .ok (.stunt, true)) ∧
    ((lookupCB cbs n).isSome = false →
      stuntdoubleType (.iface n impls) cbs = .ok (.iface n impls, false)) := by
  constructor <;> intro h <;>
    simp [stuntdoubleType, implementsUnm, show typeString (.iface n impls) = n from rfl, h]

/-- C4 witness: a registered interface name is substituted, an unregistered
one is kept. -/
theorem claim_C4_witness :
    stuntdoubleType (.iface "p.I" []) cbsDemo = .ok (.stunt, true) ∧
    stuntdoubleType (.iface "p.J" []) cbsDemo = .ok (.iface "p.J" [], false) :=
  ⟨(claim_C4_interface_slot_substitution "p.I" [] cbsDemo).1 rfl,
   (claim_C4_interface_slot_substitution "p.J" [] cbsDemo).2 rfl⟩

/-- C5: shadow isomorphism — whenever `stuntdoubleType` succeeds, the
returned shadow type is structurally isomorphic to the input type:
identical kinds everywhere except registered interface slots becoming
`StuntDouble`, struct fields preserved in name, order and count, array
lengths preserved, and pointer/slice/map structure preserved with shadowed
components. -/
theorem claim_C5_shadow_isomorphism (t : GoType) (cbs : CBMap) (s : GoType) (b : Bool)
    (h : stuntdoubleType t cbs = .ok (s, b)) : ShadowIso cbs t s :=
  (sdType_sound t cbs s b h).2.2

/-- C5 witness: the shadow of a two-field struct with a registered slot. -/
theorem claim_C5_witness :
    ShadowIso cbsDemo (.struct_ [("I", .iface "p.I" []), ("S", .prim "string")])
      (.struct_ [("I", .stunt), ("S", .prim "string")]) :=
  claim_C5_shadow_isomorphism (.struct_ [("I", .iface "p.I" []), ("S", .prim "string")])
    cbsDemo (.struct_ [("I", .stunt), ("S", .prim "string")]) true rfl

/-- C6: `needsShadow` reports substitution exactly — on success the boolean
is `true` iff the returned type differs from the input, and when it is
`false` the returned type is the input itself. -/
theorem claim_C6_needsShadow_exact (t : GoType) (cbs : CBMap) (s : GoType) (b : Bool)
    (h : stuntdoubleType t cbs = .ok (s, b)) :
    (b = true ↔ s ≠ t) ∧ (b = false → s = t) := by
  obtain ⟨h1, h2, _⟩ := sdType_sound t cbs s b h
  refine ⟨⟨h2, fun hne => ?_⟩, h1⟩
  cases b with
  | true => rfl
  | false => exact absurd (h1 rfl) hne

/-- C6 witness: a substituted interface reports `true` and differs; an
untouched primitive reports `false` and is returned unchanged. -/
theorem claim_C6_witness :
    ((true = true ↔ GoType.stunt ≠ GoType.iface "p.I" []) ∧
      (true = false → GoType.stunt = GoType.iface "p.I" [])) ∧
    ((false = true ↔ GoType.prim "int" ≠ GoType.prim "int") ∧
      (false = false → GoType.prim "int" = GoType.prim "int")) :=
  ⟨claim_C6_needsShadow_exact (.iface "p.I" []) cbsDemo .stunt true rfl,
   claim_C6_needsShadow_exact (.prim "int") cbsDemo (.prim "int") false rfl⟩

/-- Appending a fresh entry makes its name resolvable. -/
theorem lookupCB_append_self (m : CBMap) (name : String) (cb : CB)
    (h : (lookupCB m name).isSome = false) :
    lookupCB (m ++ [(name, cb)]) name = some cb := by
  induction m with
  | nil => simp [lookupCB, List.lookup]
  | cons p rest ih =>
    obtain ⟨k, v⟩ := p
    cases hk : (name == k) with
    | true => simp [lookupCB, List.lookup, hk] at h
    | false =>
      simp only [lookupCB, List.lookup, List.cons_append, hk] at h ⊢
      exact ih h

theorem lookupCB_append_other (m : CBMap) (name n2 : String) (cb : CB) (hn : n2 ≠ name) :
    lookupCB (m ++ [(name, cb)]) n2 = lookupCB m n2 := by
  induction m with
  | nil =>
    simp [lookupCB, List.lookup, show (n2 == name) = false from beq_eq_false_iff_ne.mpr hn]
  | cons p rest ih =>
    obtain ⟨k, v⟩ := p
    cases hk : (n2 == k) with
    | true => simp [lookupCB, List.lookup, hk]
    | false =>
      simp only [lookupCB, List.lookup, List.cons_append, hk]
      exact ih

/-- C8: duplicate registration is fatal — registering a name already in the
registry panics (for any supplied callback, identical or not) and leaves
the registry unwritten, while registering a fresh name succeeds and adds
exactly that one entry (the new name maps to the new callback and every
other name is looked up as before). -/
theorem claim_C8_duplicate_registration (m : CBMap) (name : String) (cb : CB) :
    ((lookupCB m name).isSome = true →
      AddGlobalCB m name cb = .panicked (.newErr "CB already defined")) ∧
    ((lookupCB m name).isSome = false →
      AddGlobalCB m name cb = .updated (m ++ [(name, cb)]) ∧
        lookupCB (m ++ [(name, cb)]) name = some cb ∧
        ∀ n2, n2 ≠ name → lookupCB (m ++ [(name, cb)]) n2 = lookupCB m n2) := by
  constructor
  · intro h
    simp [AddGlobalCB, h]
  · intro h
    exact ⟨by simp [AddGlobalCB, h], lookupCB_append_self m name cb h,
      fun n2 hn2 => lookupCB_append_other m name n2 cb hn2⟩

/-- C8 witness: re-registering the registered name panics; registering a
fresh name extends the registry by exactly that entry. -/
theorem claim_C8_witness :
    AddGlobalCB cbsDemo "p.I" demoCB = .panicked (.newErr "CB already defined") ∧
    (AddGlobalCB cbsDemo "p.K" demoCB = .updated (cbsDemo ++ [("p.K", demoCB)]) ∧
      lookupCB (cbsDemo ++ [("p.K", demoCB)]) "p.K" = some demoCB ∧
      ∀ n2, n2 ≠ "p.K" →
        lookupCB (cbsDemo ++ [("p.K", demoCB)]) n2 = lookupCB cbsDemo n2) :=
  ⟨(claim_C8_duplicate_registration cbsDemo "p.I" demoCB).1 rfl,
   (claim_C8_duplicate_registration cbsDemo "p.K" demoCB).2 rfl⟩

/-- C9 (as stated, refuted): the byte round trip fails at the empty byte
sequence — unmarshalling `[]` stores `[]`, but marshalling that empty
capture returns the literal `null`, not `[]`. -/
theorem claim_C9_counterexample :
    StuntDouble.UnmarshalJSON (some ([] : StuntDouble)) [] = .ok ([] : Bytes) ∧
    StuntDouble.MarshalJSON ([] : StuntDouble) = .ok nullBytes ∧
    nullBytes ≠ ([] : Bytes) :=
  ⟨rfl, rfl, by decide⟩

/-- C9 (amended): unmarshalling any byte sequence into a (non-nil)
`StuntDouble` stores exactly those bytes verbatim, and marshalling the
stored capture returns exactly those bytes whenever they are non-empty
(the empty capture marshals as the literal `null`). -/
theorem claim_C9_roundtrip (bs : Bytes) (d : StuntDouble) :
    StuntDouble.UnmarshalJSON (some d) bs = .ok bs ∧
    (bs ≠ [] → StuntDouble.MarshalJSON bs = .ok bs) := by
  refine ⟨rfl, fun h => ?_⟩
  simp [StuntDouble.MarshalJSON, h]

/-- C9 witness: a concrete two-byte capture round-trips. -/
theorem claim_C9_witness :
    StuntDouble.UnmarshalJSON (some ([42] : StuntDouble)) [104, 105] = .ok [104, 105] ∧
    StuntDouble.MarshalJSON ([104, 105] : StuntDouble) = .ok [104, 105] :=
  ⟨(claim_C9_roundtrip [104, 105] [42]).1,
   (claim_C9_roundtrip [104, 105] [42]).2 (by decide)⟩

/-- C10: marshalling the zero (empty) `StuntDouble` returns the literal
bytes `null` with no error — not the empty byte sequence it stores — and
this is the only input where `MarshalJSON` differs from the stored bytes
(every non-empty capture marshals to itself). -/
theorem claim_C10_empty_marshal (bs : Bytes) :
    StuntDouble.MarshalJSON ([] : StuntDouble) = .ok nullBytes ∧
    nullBytes ≠ ([] : Bytes) ∧
    (bs ≠ [] → StuntDouble.MarshalJSON bs = .ok bs) := by
  refine ⟨rfl, by decide, fun h => ?_⟩
  simp [StuntDouble.MarshalJSON, h]

/-- C10 witness: the empty capture marshals as `null`; a non-empty one as
itself. -/
theorem claim_C10_witness :
    StuntDouble.MarshalJSON ([] : StuntDouble) = .ok nullBytes ∧
    StuntDouble.MarshalJSON ([55] : StuntDouble) = .ok [55] :=
  ⟨(claim_C10_empty_marshal [55]).1, (claim_C10_empty_marshal [55]).2.2 (by decide)⟩

/-- `finishCollection` returns exactly the loop result's error. -/
theorem finishCollection_fst {A : Type} (p : Option GoError × A) (real : GoValue)
    (mk : A → GoValue) : (finishCollection p real mk).1 = p.1 := by
  cases hp : p.1 <;> simp [finishCollection, hp]

/-- `fmtErr` yields a `cbErr` only when given that same `cbErr`: wrapping
never creates or alters the callback-error tag. -/
theorem fmtErr_cbErr (msg : String) (e2 e : GoError)
    (h : fmtErr msg e2 = .cbErr e) : e2 = .cbErr e := by
  cases e2 <;> simp [fmtErr] at h <;> simp [h]

/-- Origination lemma for the struct field loop, parameterized by the
origination property of the per-field reconciliation (supplied by the main
induction, restricted to the field types actually in the list). -/
theorem walkFields_cbErr_origin (cbs : CBMap) (e : GoError) :
    ∀ (rfts : List (String × GoType)) (sfts : List (String × GoType))
      (svs rvs : List GoValue),
      (∀ st sv p, p ∈ rfts → ∀ rv,
        (stuntdoubleToReal cbs st sv p.2 rv).1 = some (.cbErr e) →
        ∃ raw name cb, lookupCB cbs name = some cb ∧ cb raw = .error e) →
      (walkFields cbs sfts svs rfts rvs).1 = some (.cbErr e) →
      ∃ raw name cb, lookupCB cbs name = some cb ∧ cb raw = .error e := by
  intro rfts
  induction rfts with
  | nil =>
    intro sfts svs rvs _ h
    cases sfts <;> cases svs <;> cases rvs <;> simp [walkFields] at h
  | cons rp rfs ih =>
    obtain ⟨rn, rt⟩ := rp
    intro sfts svs rvs SDR h
    cases sfts with
    | nil => cases svs <;> cases rvs <;> simp [walkFields] at h
    | cons sp sfs =>
      obtain ⟨sn, st⟩ := sp
      cases svs with
      | nil => cases rvs <;> simp [walkFields] at h
      | cons sv svs2 =>
        cases rvs with
        | nil => simp [walkFields] at h
        | cons rv rvs2 =>
          rw [walkFields] at h
          split at h
          · simp at h
          · cases hrec : stuntdoubleToReal cbs st sv rt rv with
            | mk err rv2 =>
              rw [hrec] at h
              cases err with
              | some e2 =>
                simp at h
                have h2 := fmtErr_cbErr "struct field stuntdoubleToReal error" e2 e h
                exact SDR st sv (rn, rt) (by simp) rv (by rw [hrec]; simpa using h2)
              | none =>
                cases hrec2 : walkFields cbs sfs svs2 rfs rvs2 with
                | mk err2 rvs3 =>
                  rw [hrec2] at h
                  simp at h
                  exact ih sfs svs2 rvs2
                    (fun st2 sv2 p hp rv2a h2a => SDR st2 sv2 p (by simp [hp]) rv2a h2a)
                    (by rw [hrec2]; simpa using h)

set_option maxHeartbeats 1000000 in
mutual

/-- Origination of `cbErr`-tagged errors in the reconciler: a `cbErr e`
coming out of `stuntdoubleToReal` was created at a callback invocation
site — some registered callback rejected some captured bytes with exactly
the error `e` — and was propagated verbatim (never rewrapped) through
every enclosing level. -/
theorem sdr_cbErr_origin (cbs : CBMap) (sdT : GoType) (sd : GoValue) (realT : GoType)
    (real : GoValue) (e : GoError)
    (h : (stuntdoubleToReal cbs sdT sd realT real).1 = some (.cbErr e)) :
    ∃ raw name cb, lookupCB cbs name = some cb ∧ cb raw = .error e := by
  rw [stuntdoubleToReal] at h
  by_cases hs : (GoType.beq sdT .stunt) = true
  · rw [if_pos hs] at h
    cases hl : lookupCB cbs (typeString realT) with
    | none =>
      simp only [hl] at h
      exact sdrAfter_cbErr_origin cbs sdT sd realT real e h
    | some cb =>
      cases sd with
      | stuntV bsv =>
        simp only [hl] at h
        cases hcb : cb bsv with
        | error e0 =>
          simp only [hcb] at h
          simp at h
          exact ⟨bsv, typeString realT, cb, hl, by rw [hcb, h]⟩
        | ok p =>
          obtain ⟨t2, v2⟩ := p
          simp only [hcb] at h
          exact sdrAfter_cbErr_origin cbs t2 v2 realT real e h
      | primV a => simp [hl] at h
      | ptrV a => simp [hl] at h
      | ifaceV a => simp [hl] at h
      | arrayV a => simp [hl] at h
      | sliceV a => simp [hl] at h
      | structV a => simp [hl] at h
      | mapV a => simp [hl] at h
      | opaqueV a => simp [hl] at h
  · rw [if_neg hs] at h
    exact sdrAfter_cbErr_origin cbs sdT sd realT real e h
termination_by (sizeOf realT, 2, 0)
decreasing_by
  all_goals subst_vars
  all_goals decreasing_tactic

/-- Companion of `sdr_cbErr_origin` for the post-callback part: case
analysis over the destination-kind switch; every error literal of the
switch is a plain error, so a `cbErr` can only come out of a recursive
call, to which the induction applies. -/
theorem sdrAfter_cbErr_origin (cbs : CBMap) (sdT : GoType) (sd : GoValue) (realT : GoType)
    (real : GoValue) (e : GoError)
    (h : (sdrAfterCB cbs sdT sd realT real).1 = some (.cbErr e)) :
    ∃ raw name cb, lookupCB cbs name = some cb ∧ cb raw = .error e := by
  rw [sdrAfterCB.eq_def] at h
  by_cases hu : implementsUnm sdT = true
  · rw [if_pos hu] at h
    split at h <;> simp at h
  · rw [if_neg hu] at h
    split at h <;>
      first
        | (simp at h; done)
        | exact sdrAfter_cbErr_origin cbs sdT sd _ real e h
        | exact sdr_cbErr_origin _ _ _ _ _ e (by simpa using h)
        | exact walkFields_cbErr_origin cbs e _ _ _ _ (fun st0 sv0 p hp rv0 h0 => sdr_cbErr_origin cbs st0 sv0 p.2 rv0 e h0) (by simpa using h)
        | (rw [finishCollection_fst] at h
           first
             | exact walkElems_cbErr_origin _ _ _ _ _ _ e h
             | exact walkMapEntries_cbErr_origin _ _ _ _ _ _ _ e h)
        | (split at h <;>
            first
              | (simp at h; done)
              | exact sdr_cbErr_origin _ _ _ _ _ e (by simpa using h)
              | exact walkElems_cbErr_origin _ _ _ _ _ _ e (by simpa using h)
              | exact walkFields_cbErr_origin cbs e _ _ _ _ (fun st0 sv0 p hp rv0 h0 => sdr_cbErr_origin cbs st0 sv0 p.2 rv0 e h0) (by simpa using h)
              | (rw [finishCollection_fst] at h
                 first
                   | exact walkElems_cbErr_origin _ _ _ _ _ _ e h
                   | exact walkMapEntries_cbErr_origin _ _ _ _ _ _ _ e h)
              | (split at h <;>
                  first
                    | (simp at h; done)
                    | exact sdr_cbErr_origin _ _ _ _ _ e (by simpa using h)
                    | exact walkElems_cbErr_origin _ _ _ _ _ _ e (by simpa using h)
                    | exact walkFields_cbErr_origin cbs e _ _ _ _ (fun st0 sv0 p hp rv0 h0 => sdr_cbErr_origin cbs st0 sv0 p.2 rv0 e h0) (by simpa using h)
                    | (rw [finishCollection_fst] at h
                       first
                         | exact walkElems_cbErr_origin _ _ _ _ _ _ e h
                         | exact walkMapEntries_cbErr_origin _ _ _ _ _ _ _ e h)
                    | (split at h <;>
                        first
                          | (simp at h; done)
                          | exact sdr_cbErr_origin _ _ _ _ _ e (by simpa using h)
                          | exact walkElems_cbErr_origin _ _ _ _ _ _ e (by simpa using h)
                          | exact walkFields_cbErr_origin cbs e _ _ _ _ (fun st0 sv0 p hp rv0 h0 => sdr_cbErr_origin cbs st0 sv0 p.2 rv0 e h0) (by simpa using h)
                          | (rw [finishCollection_fst] at h
                             first
                               | exact walkElems_cbErr_origin _ _ _ _ _ _ e h
                               | exact walkMapEntries_cbErr_origin _ _ _ _ _ _ _ e h))))
termination_by (sizeOf realT, 1, 0)
decreasing_by
  all_goals subst_vars
  all_goals first
    | decreasing_tactic
    | (simp_wf
       apply Prod.Lex.left
       obtain ⟨pn, pt⟩ := p
       have h1 := List.sizeOf_lt_of_mem hp
       simp_arith at h1 ⊢
       omega)

/-- Companion of `sdr_cbErr_origin` for the array and slice element loops. -/
theorem walkElems_cbErr_origin (cbs : CBMap) (sdElT relT : GoType) (msg : String)
    (sds rs : List GoValue) (e : GoError)
    (h : (walkElems cbs sdElT relT msg sds rs).1 = some (.cbErr e)) :
    ∃ raw name cb, lookupCB cbs name = some cb ∧ cb raw = .error e := by
  match sds, rs with
  | [], [] => simp [walkElems] at h
  | [], r :: rs2 => simp [walkElems] at h
  | s :: ss, [] => simp [walkElems] at h
  | s :: ss, r :: rs2 =>
    rw [walkElems] at h
    cases hrec : stuntdoubleToReal cbs sdElT s relT r with
    | mk err r2 =>
      rw [hrec] at h
      cases err with
      | some e2 =>
        simp at h
        have h2 := fmtErr_cbErr msg e2 e h
        exact sdr_cbErr_origin cbs sdElT s relT r e (by rw [hrec]; simpa using h2)
      | none =>
        cases hrec2 : walkElems cbs sdElT relT msg ss rs2 with
        | mk err2 rs3 =>
          rw [hrec2] at h
          simp at h
          exact walkElems_cbErr_origin cbs sdElT relT msg ss rs2 e
            (by rw [hrec2]; simpa using h)
termination_by (sizeOf relT, 3, sds.length)
decreasing_by
  all_goals subst_vars
  all_goals decreasing_tactic

/-- Companion of `sdr_cbErr_origin` for the map entry loop. -/
theorem walkMapEntries_cbErr_origin (cbs : CBMap) (sdkT sdvT rkT rvT : GoType)
    (entries acc : List (GoValue × GoValue)) (e : GoError)
    (h : (walkMapEntries cbs sdkT sdvT rkT rvT entries acc).1 = some (.cbErr e)) :
    ∃ raw name cb, lookupCB cbs name = some cb ∧ cb raw = .error e := by
  match entries with
  | [] => simp [walkMapEntries] at h
  | (dk, dv) :: rest =>
    rw [walkMapEntries] at h
    cases hrk : stuntdoubleToReal cbs sdkT dk rkT (zeroValue rkT) with
    | mk errk rk =>
      rw [hrk] at h
      cases errk with
      | some e2 =>
        simp at h
        have h2 := fmtErr_cbErr "map key stuntdoubleToReal error" e2 e h
        exact sdr_cbErr_origin cbs sdkT dk rkT (zeroValue rkT) e
          (by rw [hrk]; simpa using h2)
      | none =>
        cases hrv : stuntdoubleToReal cbs sdvT dv rvT (zeroValue rvT) with
        | mk errv rv =>
          rw [hrv] at h
          cases errv with
          | some e2 =>
            simp at h
            have h2 := fmtErr_cbErr "map val stuntdoubleToReal error" e2 e h
            exact sdr_cbErr_origin cbs sdvT dv rvT (zeroValue rvT) e
              (by rw [hrv]; simpa using h2)
          | none =>
            exact walkMapEntries_cbErr_origin cbs sdkT sdvT rkT rvT rest
              (mapInsert acc rk rv) e h
termination_by (sizeOf (GoType.map_ rkT rvT), 0, entries.length)
decreasing_by
  all_goals subst_vars
  all_goals decreasing_tactic

end

/-- C2: resolver error propagation — whenever reconciliation yields a
`cbErr`-tagged error (the tag is created exactly at a callback invocation
site, wrapping the callback's own returned error, and is preserved
verbatim through every nesting level — `sdr_cbErr_origin`), `Unmarshal`
returns exactly the callback's error value, unwrapped and unannotated;
the second conjunct exhibits the registered callback and captured bytes
that produced precisely that error. -/
theorem claim_C2_resolver_error_propagation
    (jdec : JsonDecoder) (bs : Bytes) (t : GoType) (v : GoValue) (cbs : CBMap)
    (sdT : GoType) (sdv : GoValue) (e : GoError)
    (hderive : stuntdoubleType t cbs = .ok (sdT, true))
    (hdecode : jdec bs sdT (zeroValue sdT) = (none, sdv))
    (hrec : (stuntdoubleToReal cbs (.ptr sdT) (.ptrV (some sdv)) (.ptr t)
        (.ptrV (some v))).1 = some (.cbErr e)) :
    (Unmarshal jdec bs t v cbs).1 = some e ∧
    ∃ raw name cb, lookupCB cbs name = some cb ∧ cb raw = .error e := by
  refine ⟨?_, sdr_cbErr_origin cbs (.ptr sdT) (.ptrV (some sdv)) (.ptr t)
    (.ptrV (some v)) e hrec⟩
  cases hfull : stuntdoubleToReal cbs (.ptr sdT) (.ptrV (some sdv)) (.ptr t)
      (.ptrV (some v)) with
  | mk err rv =>
    rw [hfull] at hrec
    simp at hrec
    subst hrec
    simp only [Unmarshal, hderive, hdecode, hfull]
    simp [fmtErr, unwrapCBErr]

/-- C2 witness: a resolver rejecting bytes captured three levels deep
(struct → slice → struct → interface) makes the whole decode fail with
exactly that resolver's error. -/
theorem claim_C2_witness :
    (Unmarshal jdDeep [51] deepT (zeroValue deepT) cbsFail).1 =
      some (.newErr "Negative Radius") ∧
    ∃ raw name cb, lookupCB cbsFail name = some cb ∧
      cb raw = .error (.newErr "Negative Radius") :=
  claim_C2_resolver_error_propagation jdDeep [51] deepT (zeroValue deepT) cbsFail
    (.struct_ [("Outer", .slice (.struct_ [("I", .stunt)]))])
    (.structV [.sliceV [.structV [.stuntV [51]]]])
    (.newErr "Negative Radius")
    (by rfl) (by rfl)
    (by simp [stuntdoubleToReal, sdrAfterCB, walkFields, walkElems, finishCollection,
      deepT, cbsFail, failCB, lookupCB, typeString, typeStringFields, implementsUnm,
      kindOf, elemOf, fieldsOf, zeroValue, zeroFields, GoType.beq, GoType.beqFields,
      fmtErr])

/-- C7: unregistered slot passthrough — an interface slot with no registry
entry is left unchanged by the shadow deriver, and the decode of a bare
such slot is handed to the generic decoder unchanged; with the
spec-modelled generic decoder for bare interface destinations, decoding
`null` succeeds (leaving the slot nil) and decoding any non-null input
fails with the generic decoder's own error — a plain error, never a
callback-originated (`cbErr`-tagged) one, since no callback exists for the
slot. -/
theorem claim_C7_unregistered_passthrough (n : String) (impls : List String)
    (cbs : CBMap) (bs : Bytes) (v : GoValue)
    (h : (lookupCB cbs n).isSome = false) :
    stuntdoubleType (.iface n impls) cbs = .ok (.iface n impls, false) ∧
    Unmarshal genericDecodeBareIface bs (.iface n impls) v cbs =
      genericDecodeBareIface bs (.iface n impls) v ∧
    (bs = nullBytes →
      Unmarshal genericDecodeBareIface bs (.iface n impls) v cbs = (none, .ifaceV none)) ∧
    (bs ≠ nullBytes →
      Unmarshal genericDecodeBareIface bs (.iface n impls) v cbs =
        (some (.newErr "json: cannot unmarshal into Go interface value"), v)) := by
  have h1 : stuntdoubleType (.iface n impls) cbs = .ok (.iface n impls, false) := by
    simp [stuntdoubleType, implementsUnm, show typeString (.iface n impls) = n from rfl, h]
  have h2 : Unmarshal genericDecodeBareIface bs (.iface n impls) v cbs =
      genericDecodeBareIface bs (.iface n impls) v := by
    simp [Unmarshal, h1]
  refine ⟨h1, h2, fun hb => ?_, fun hb => ?_⟩
  · rw [h2]; simp [genericDecodeBareIface, hb]
  · rw [h2]; simp [genericDecodeBareIface, hb]

/-- C7 witness: decoding `null` into an unregistered bare interface slot
succeeds; decoding a non-null input fails with the generic error. -/
theorem claim_C7_witness :
    Unmarshal genericDecodeBareIface nullBytes (.iface "q.J" []) (.ifaceV none) cbsFail =
      (none, .ifaceV none) ∧
    Unmarshal genericDecodeBareIface [52] (.iface "q.J" []) (.ifaceV none) cbsFail =
      (some (.newErr "json: cannot unmarshal into Go interface value"), .ifaceV none) :=
  ⟨(claim_C7_unregistered_passthrough "q.J" [] cbsFail nullBytes (.ifaceV none) rfl).2.2.1
      rfl,
   (claim_C7_unregistered_passthrough "q.J" [] cbsFail [52] (.ifaceV none) rfl).2.2.2
      (by decide)⟩

end Jsonface
